import Mathlib

/-
Verification of the context/memory management and tool-call orchestration
engine of the my-tiny-agents repository (src/tiny_agents/__main__.py and
src/tiny_agents/schemas.py), as a shallow embedding in Lean 4.

External collaborators are modelled as parameters:
  - the token encoding (tiktoken) as an arbitrary function `enc : String → Nat`;
  - JSON serialization (json.dumps) of tool-call payloads and of the tool
    schema list as arbitrary functions;
  - JSON parsing of tool-call arguments (json.loads) as an arbitrary
    fallible function;
  - the MCP tool providers as an arbitrary fallible `call_tool` function;
  - the LLM backend as an arbitrary fallible function of the invocation
    index and the message list.
All of these are bundled or passed explicitly, and the theorems quantify
over them, so every result holds for every behaviour of the collaborators.
-/

namespace TinyAgents

/-- The four message roles of the data model (schemas.py `Message.role`;
the spec data model fixes this enum). -/
inductive Role where
  | system
  | user
  | assistant
  | tool
deriving DecidableEq

/-- One entry of an assistant message's `tool_calls` list, shape
`\x7b"id", "type", "function": \x7b"name", "arguments"\x7d\x7d` as built in
`execute_query` and consumed by `_execute_tool`. -/
structure FuncSpec where
  name : String
  arguments : String
deriving DecidableEq

/-- A requested tool invocation (`ToolCallRequest` of the spec). -/
structure ToolCall where
  id : String
  type : String
  function : FuncSpec
deriving DecidableEq

/-- schemas.py `Message`: role, content, tool_calls, tool_call_id, name,
with the dataclass defaults. -/
structure Message where
  role : Role
  content : String := ""
  tool_calls : List ToolCall := []
  tool_call_id : String := ""
  name : String := ""
deriving DecidableEq

/-- The dictionary produced by `Message.to_dict`: the `role` key is always
present; every other key is optional. (Python stores the role as its
string name; the evident bijection with `Role` is left implicit.) -/
structure MsgDict where
  role : Role
  content : Option String
  tool_calls : Option (List ToolCall)
  tool_call_id : Option String
  name : Option String
deriving DecidableEq

/-- schemas.py `Message.to_dict`: system/user/assistant messages always
carry a `content` key (the Python `self.content if self.content else ""`,
which for a string field is the content itself); a tool message carries
`content` only when non-empty; `tool_calls`, `tool_call_id` and `name`
are emitted only when truthy. -/
def Message.to_dict (m : Message) : MsgDict :=
  { role := m.role
    content :=
      if m.role = Role.assistant ∨ m.role = Role.user ∨ m.role = Role.system then
        some (if m.content = "" then "" else m.content)
      else if m.content = "" then none else some m.content
    tool_calls := if m.tool_calls = [] then none else some m.tool_calls
    tool_call_id := if m.tool_call_id = "" then none else some m.tool_call_id
    name := if m.name = "" then none else some m.name }

/-- A tool descriptor as returned by a provider's `list_tools`
(`ToolDescriptor` of the spec; `inputSchema` is an opaque JSON value,
modelled as its serialized text). -/
structure ToolDescr where
  name : String
  description : String
  inputSchema : String
deriving DecidableEq

/-- One entry of `build_tool_schemas`' output:
`\x7b"type": "function", "function": \x7b"name", "description", "parameters"\x7d\x7d`. -/
structure ToolSchema where
  type : String
  name : String
  description : String
  parameters : String
deriving DecidableEq

/-- The textual content items of a successful provider `call_tool` result. -/
structure ToolResult where
  content : List String
deriving DecidableEq

/-- The external collaborators of the engine: the token encoding, the two
JSON serializers, the JSON argument parser and the tool providers. -/
structure Env where
  enc : String → Nat
  dumps_tool_calls : List ToolCall → String
  dumps_schemas : List ToolSchema → String
  json_loads : String → Except String String
  call_tool : Nat → String → String → Except String ToolResult

/-- The state of `AgentMemory`: token budget, safety buffer and the
durable message log. -/
structure AgentMemory where
  max_tokens : Int
  buffer : Int
  messages : List Message

/-- Per-message share of `AgentMemory.calculate_token_count`: 4 tokens of
overhead, plus the encoded content when the `content` key is present and
truthy, plus the encoded `json.dumps` of the `tool_calls` payload when
that key is present. -/
def token_count_one (env : Env) (d : MsgDict) : Nat :=
  4 +
  (match d.content with
   | some c => if c = "" then 0 else env.enc c
   | none => 0) +
  (match d.tool_calls with
   | some tcs => env.enc (env.dumps_tool_calls tcs)
   | none => 0)

/-- `AgentMemory.calculate_token_count`: the per-message counts plus the
2-token reply-priming constant, added once per call. -/
def calculate_token_count (env : Env) (ds : List MsgDict) : Nat :=
  (ds.map (token_count_one env)).sum + 2

/-- `AgentMemory.clear_history`: empties the log. -/
def clear_history (mem : AgentMemory) : AgentMemory :=
  { mem with messages := [] }

/-- `AgentMemory.generate_summary`:
`f"Chat history: \x7btotal\x7d messages, ~\x7btokens\x7d tokens"`. -/
def generate_summary (env : Env) (mem : AgentMemory) : String :=
  "Chat history: " ++ toString mem.messages.length ++ " messages, ~" ++
    toString (calculate_token_count env (mem.messages.map Message.to_dict)) ++ " tokens"

/-- The selection loop of `AgentMemory.build_context_messages`: iterate
over the reversed log, include a message while its marginal cost fits the
remaining `available` budget, and break at the first message that does
not fit. Returns the selected messages in chronological order together
with the final `used` counter. -/
def trim_loop (env : Env) (available : Int) : List MsgDict → Nat → List MsgDict × Nat
  | [], used => ([], used)
  | d :: rest, used =>
    let msg_tokens := calculate_token_count env [d]
    if ((used + msg_tokens : Nat) : Int) ≤ available then
      let r := trim_loop env available rest (used + msg_tokens)
      (r.1 ++ [d], r.2)
    else ([], used)

/-- The `reserved` local of `build_context_messages`: cost of the system
message, the current message, the tool schemas and the safety buffer. -/
def reserved_tokens (env : Env) (mem : AgentMemory) (system_msg current_msg : Message)
    (tools_tokens : Int) : Int :=
  (calculate_token_count env [system_msg.to_dict] : Int) +
  (calculate_token_count env [current_msg.to_dict] : Int) +
  tools_tokens + mem.buffer

/-- The `available` local of `build_context_messages`. -/
def context_available (env : Env) (mem : AgentMemory) (system_msg current_msg : Message)
    (tools_tokens : Int) : Int :=
  mem.max_tokens - reserved_tokens env mem system_msg current_msg tools_tokens

/-- The `(trimmed, used)` pair after the selection loop of
`build_context_messages` ran over the reversed log. -/
def context_selection (env : Env) (mem : AgentMemory) (system_msg current_msg : Message)
    (tools_tokens : Int) : List MsgDict × Nat :=
  trim_loop env (context_available env mem system_msg current_msg tools_tokens)
    ((mem.messages.map Message.to_dict).reverse) 0

/-- The synthetic trim-notice message:
`f"[Note: \x7bn\x7d earlier messages trimmed]"` with `n` the number of
excluded messages. -/
def trim_notice (mem : AgentMemory) (selected : List MsgDict) : Message :=
  { role := Role.system
    content := "[Note: " ++ toString (mem.messages.length - selected.length) ++
      " earlier messages trimmed]" }

/-- `AgentMemory.build_context_messages`: reserve the fixed per-turn
costs; on a non-positive remainder return no history; otherwise greedily
select recent messages, and prepend the trim notice when messages were
excluded and the notice itself still fits. -/
def build_context_messages (env : Env) (mem : AgentMemory) (system_msg current_msg : Message)
    (tools_tokens : Int) : List MsgDict :=
  if context_available env mem system_msg current_msg tools_tokens ≤ 0 then []
  else if (context_selection env mem system_msg current_msg tools_tokens).1.length
      < mem.messages.length then
    if ((calculate_token_count env
          [(trim_notice mem (context_selection env mem system_msg current_msg tools_tokens).1).to_dict]
        + (context_selection env mem system_msg current_msg tools_tokens).2 : Nat) : Int)
        ≤ context_available env mem system_msg current_msg tools_tokens then
      (trim_notice mem (context_selection env mem system_msg current_msg tools_tokens).1).to_dict
        :: (context_selection env mem system_msg current_msg tools_tokens).1
    else (context_selection env mem system_msg current_msg tools_tokens).1
  else (context_selection env mem system_msg current_msg tools_tokens).1

/-- Sum of the individual `calculate_token_count` costs of a list of
message dictionaries (the quantity accumulated in `used`). -/
def sum_msg_tokens (env : Env) (ds : List MsgDict) : Nat :=
  (ds.map (fun d => calculate_token_count env [d])).sum

/-- The registry state of `MyTinyAgent`: connected session handles
(modelled as numbers), the list of all registered tool descriptors, and
the `tool_to_session` dictionary (modelled as a lookup function, with
Python dict assignment as pointwise update). -/
structure AgentState where
  sessions : List Nat
  tools : List ToolDescr
  tool_to_session : String → Option Nat

/-- The registration step of `MyTinyAgent.connect_mcp_server` after a
successful `list_tools`: the session is recorded, every listed descriptor
is appended to `tools`, and `tool_to_session[tool.name] = session` is
assigned in order (so a colliding name ends up mapped to this session). -/
def connect_mcp_server (st : AgentState) (session : Nat) (listed : List ToolDescr) : AgentState :=
  { sessions := st.sessions ++ [session]
    tools := st.tools ++ listed
    tool_to_session :=
      listed.foldl (fun m t => fun n => if n = t.name then some session else m n)
        st.tool_to_session }

/-- `MyTinyAgent.build_tool_schemas`: one schema entry per element of
`self.tools`, in order. -/
def build_tool_schemas (st : AgentState) : List ToolSchema :=
  st.tools.map (fun t =>
    { type := "function", name := t.name, description := t.description,
      parameters := t.inputSchema })

/-- The empty registry state of a freshly constructed agent. -/
def initial_state : AgentState :=
  { sessions := [], tools := [], tool_to_session := fun _ => none }

/-- First index (in characters) at which `sub` occurs in the haystack,
mirroring Python `str.find` (which returns -1, modelled as `none`). -/
def findSub (sub : List Char) : List Char → Option Nat
  | [] => if sub = [] then some 0 else none
  | c :: t =>
    if sub.isPrefixOf (c :: t) then some 0
    else (findSub sub t).map (fun i => i + 1)

/-- Python `s.find(sub)` on strings, via character lists. -/
def strFind (s sub : String) : Option Nat :=
  findSub sub.toList s.toList

/-- Python `s.find(sub, start)`. -/
def strFindFrom (s sub : String) (start : Nat) : Option Nat :=
  (findSub sub.toList (s.toList.drop start)).map (fun i => i + start)

/-- Python `sub in s`. -/
def hasSub (s sub : String) : Bool :=
  (strFind s sub).isSome

/-- Python slice `s[:n]` (character indices, clamped). -/
def strTake (s : String) (n : Nat) : String :=
  String.mk (s.toList.take n)

/-- Python slice `s[n:]` (character indices, clamped). -/
def strDrop (s : String) (n : Nat) : String :=
  String.mk (s.toList.drop n)

/-- Python slice `s[a:b]` (character indices, clamped; empty when b ≤ a). -/
def strSlice (s : String) (a b : Nat) : String :=
  String.mk ((s.toList.drop a).take (b - a))

/-- The whitespace characters stripped by Python `str.strip()`. -/
def isPySpace (c : Char) : Bool :=
  c == ' ' || c == '\t' || c == '\n' || c == '\r' || c == '\x0b' || c == '\x0c'

/-- Python `s.strip()`. -/
def pyStrip (s : String) : String :=
  String.mk (((s.toList.dropWhile isPySpace).reverse.dropWhile isPySpace).reverse)

/-- One response of the opaque LLM backend: content (the empty string
models absent content) and requested tool calls (the empty list models
no requests) — both checked by truthiness in the source. -/
structure LLMMessage where
  content : String := ""
  tool_calls : List ToolCall := []
deriving DecidableEq

/-- The presentation events tracked by the embedding (the analysis panel,
the action-plan panel and the task-completed panel; other purely
decorative output is out of scope, as in the spec). -/
inductive DispEvent where
  | analysis (text : String)
  | actionPlan (text : String)
  | taskCompleted (text : String)
deriving DecidableEq

/-- `MyTinyAgent._execute_tool`: parse the arguments (failure yields a
tool-role error message), look the tool up in `tool_to_session` (a miss
raises `ToolExecutionError`, caught by the same handler as provider
failures), invoke the provider, extract the first content item (or the
fixed placeholder), and append exactly one tool-role message to both the
in-flight message list and durable memory. Returns the result text of a
successful call (`None` otherwise) plus the updated lists. -/
def execute_tool (env : Env) (st : AgentState) (tc : ToolCall)
    (messages : List MsgDict) (memory : List Message) :
    Option String × List MsgDict × List Message :=
  match env.json_loads tc.function.arguments with
  | Except.error e =>
    let tool_message : Message :=
      { role := Role.tool, content := "Error: Could not parse arguments. " ++ e,
        tool_call_id := tc.id, name := tc.function.name }
    (none, messages ++ [tool_message.to_dict], memory ++ [tool_message])
  | Except.ok tool_args =>
    match st.tool_to_session tc.function.name with
    | none =>
      let tool_message : Message :=
        { role := Role.tool,
          content := "Error: Tool execution failed. Tool " ++ tc.function.name ++ " not found",
          tool_call_id := tc.id, name := tc.function.name }
      (none, messages ++ [tool_message.to_dict], memory ++ [tool_message])
    | some session =>
      match env.call_tool session tc.function.name tool_args with
      | Except.error e =>
        let tool_message : Message :=
          { role := Role.tool, content := "Error: Tool execution failed. " ++ e,
            tool_call_id := tc.id, name := tc.function.name }
        (none, messages ++ [tool_message.to_dict], memory ++ [tool_message])
      | Except.ok result =>
        let result_text := result.content.headD "No content returned"
        let tool_message : Message :=
          { role := Role.tool, content := result_text,
            tool_call_id := tc.id, name := tc.function.name }
        (some result_text, messages ++ [tool_message.to_dict], memory ++ [tool_message])

/-- The single tool-role message `_execute_tool` synthesizes for a
request, abstracted from the list-threading (proved equal to the messages
appended by `execute_tool`). -/
def tool_message_of (env : Env) (st : AgentState) (tc : ToolCall) : Message :=
  match env.json_loads tc.function.arguments with
  | Except.error e =>
    { role := Role.tool, content := "Error: Could not parse arguments. " ++ e,
      tool_call_id := tc.id, name := tc.function.name }
  | Except.ok tool_args =>
    match st.tool_to_session tc.function.name with
    | none =>
      { role := Role.tool,
        content := "Error: Tool execution failed. Tool " ++ tc.function.name ++ " not found",
        tool_call_id := tc.id, name := tc.function.name }
    | some session =>
      match env.call_tool session tc.function.name tool_args with
      | Except.error e =>
        { role := Role.tool, content := "Error: Tool execution failed. " ++ e,
          tool_call_id := tc.id, name := tc.function.name }
      | Except.ok result =>
        { role := Role.tool, content := result.content.headD "No content returned",
          tool_call_id := tc.id, name := tc.function.name }

/-- The outcome of one tool-execution round: the collected successful
result texts, and the updated message list and memory. -/
structure RoundResult where
  parts : List String
  messages : List MsgDict
  memory : List Message
deriving DecidableEq

/-- `MyTinyAgent._handle_tool_calls`: execute each request strictly in
order, collecting truthy result texts; every request is executed no
matter how the previous ones fared. -/
def handle_tool_calls (env : Env) (st : AgentState) :
    List ToolCall → List MsgDict → List Message → RoundResult
  | [], messages, memory => { parts := [], messages := messages, memory := memory }
  | tc :: rest, messages, memory =>
    let r := execute_tool env st tc messages memory
    let acc := handle_tool_calls env st rest r.2.1 r.2.2
    { acc with parts :=
        match r.1 with
        | some s => if s = "" then acc.parts else s :: acc.parts
        | none => acc.parts }

/-- The analysis-marker scan of `execute_query` (first response only):
when content is truthy, contains `<analysis>` and a closing tag exists,
the block body is stripped and displayed and removed from the content;
otherwise the content is untouched. Returns (content, analysis_displayed,
displays). The literals 10 and 11 are the lengths of the markers, as in
the source. -/
def analysis_step (content0 : String) : String × Bool × List DispEvent :=
  if content0 ≠ "" ∧ hasSub content0 "<analysis>" then
    match strFind content0 "<analysis>", strFind content0 "</analysis>" with
    | some s, some e =>
      (pyStrip (strTake content0 s ++ strDrop content0 (e + 11)), true,
       [DispEvent.analysis (pyStrip (strSlice content0 (s + 10) e))])
    | _, _ => (content0, false, [])
  else (content0, false, [])

/-- The processed first response: possibly analysis-stripped content, the
output parts collected so far, the display events, and the two marker
flags. -/
structure FirstProcessed where
  content : String
  output_parts : List String
  displays : List DispEvent
  action_plan_displayed : Bool
  analysis_displayed : Bool
deriving DecidableEq

/-- The marker processing of the first model response in `execute_query`:
the analysis scan, then the action-plan scan (which displays the plan up
to the next blank line and keeps the content out of the output), and
otherwise — content truthy and no analysis displayed — the content joins
the output parts. -/
def process_first (content0 : String) : FirstProcessed :=
  match analysis_step content0 with
  | (content1, analysis_displayed, disp1) =>
    if content1 ≠ "" then
      match strFind content1 "📋 Action Plan:" with
      | some ps =>
        { content := content1, output_parts := [],
          displays := disp1 ++ [DispEvent.actionPlan
            (strSlice content1 ps ((strFindFrom content1 "\n\n" ps).getD content1.length))],
          action_plan_displayed := true, analysis_displayed := analysis_displayed }
      | none =>
        if analysis_displayed then
          { content := content1, output_parts := [], displays := disp1,
            action_plan_displayed := false, analysis_displayed := analysis_displayed }
        else
          { content := content1, output_parts := [content1], displays := disp1,
            action_plan_displayed := false, analysis_displayed := analysis_displayed }
    else
      { content := content1, output_parts := [], displays := disp1,
        action_plan_displayed := false, analysis_displayed := analysis_displayed }

/-- The completion keywords of the final-response routing. -/
def completion_markers : List String :=
  ["completed", "summary", "finished", "done", "successfully", "saved", "created"]

/-- The final-response content handling of `execute_query`: a repeated
action plan is deduplicated (content before the marker, or nothing when
the marker starts the content); content matching a completion keyword is
routed to the task-completed panel instead of the output; the raw
assistant content is appended to memory once. An empty final content adds
nothing at all. -/
def handle_final (final_content0 : String) (action_plan_displayed : Bool)
    (parts : List String) (displays : List DispEvent) (memory : List Message) :
    List String × List DispEvent × List Message :=
  if final_content0 ≠ "" then
    let final_content :=
      if hasSub final_content0 "📋 Action Plan:" ∧ action_plan_displayed = true then
        match strFind final_content0 "📋 Action Plan:" with
        | some ps => if 0 < ps then pyStrip (strTake final_content0 ps) else ""
        | none => final_content0
      else final_content0
    let pd :=
      if final_content ≠ "" then
        if completion_markers.any (fun marker => hasSub final_content.toLower marker) then
          (parts, displays ++ [DispEvent.taskCompleted final_content])
        else (parts ++ [final_content], displays)
      else (parts, displays)
    (pd.1, pd.2, memory ++ [{ role := Role.assistant, content := final_content0 }])
  else (parts, displays, memory)

/-- Python `"\n".join(filter(None, output_parts))`. -/
def join_output (parts : List String) : String :=
  String.intercalate "\n" (parts.filter (fun p => p ≠ ""))

/-- `MyTinyAgent._invoke_llm`: wraps a backend failure into an
`AgentError` message; the invocation index models the at-most-three
calls per turn. -/
def invoke_llm (llm : Nat → List MsgDict → Except String LLMMessage) (n : Nat)
    (messages : List MsgDict) : Except String LLMMessage :=
  match llm n messages with
  | Except.error e => Except.error ("Failed to invoke LLM: " ++ e)
  | Except.ok m => Except.ok m

/-- The message list assembled at the start of `execute_query`:
`[system] + trimmed history + [current]`, with the tool-schema token
estimate `len(json.dumps(tool_schemas)) // 4`. -/
def initial_messages (env : Env) (system_prompt : String) (st : AgentState)
    (mem : AgentMemory) (query : String) : List MsgDict :=
  [(Message.mk Role.system system_prompt [] "" "").to_dict] ++
    build_context_messages env mem (Message.mk Role.system system_prompt [] "" "")
      (Message.mk Role.user query [] "" "")
      (((env.dumps_schemas (build_tool_schemas st)).length : Int) / 4) ++
    [(Message.mk Role.user query [] "" "").to_dict]

/-- The observable outcome of one `execute_query` turn: the returned
output string, the final durable memory, the tracked display events, and
(ghost instrumentation) the successful LLM responses in order, the
batches of tool requests actually executed per round, and the content of
the response handled by the final-content path. -/
structure QueryResult where
  output : String
  memory : List Message
  displays : List DispEvent
  responses : List LLMMessage
  executedBatches : List (List ToolCall)
  finalContent : Option String
deriving DecidableEq

/-- The turn outcome when a follow-up LLM invocation fails: the error
text joins the output parts and is recorded to memory as an
assistant-role message. -/
def finish_failure (fp : FirstProcessed) (e : String) (memory : List Message)
    (responses : List LLMMessage) (batches : List (List ToolCall)) : QueryResult :=
  { output := join_output (fp.output_parts ++ ["[Failed to get final response: " ++ e ++ "]"]),
    memory := memory ++ [Message.mk Role.assistant ("[Failed to get final response: " ++ e ++ "]") [] "" ""],
    displays := fp.displays, responses := responses, executedBatches := batches,
    finalContent := none }

/-- The turn outcome when a follow-up LLM response is treated as final:
its content goes through `handle_final` and any tool-call requests it
still carries are ignored. -/
def finish_final (fp : FirstProcessed) (final : LLMMessage) (memory : List Message)
    (responses : List LLMMessage) (batches : List (List ToolCall)) : QueryResult :=
  { output := join_output
      (handle_final final.content fp.action_plan_displayed fp.output_parts fp.displays memory).1,
    memory := (handle_final final.content fp.action_plan_displayed fp.output_parts fp.displays
      memory).2.2,
    displays := (handle_final final.content fp.action_plan_displayed fp.output_parts fp.displays
      memory).2.1,
    responses := responses, executedBatches := batches, finalContent := some final.content }

/-- The third LLM invocation (after the second tool round): its response
is final unconditionally. -/
def third_call (llm : Nat → List MsgDict → Except String LLMMessage)
    (fp : FirstProcessed) (message final1 : LLMMessage) (r2 : RoundResult) : QueryResult :=
  match invoke_llm llm 2 r2.messages with
  | Except.error e =>
    finish_failure fp e r2.memory [message, final1] [message.tool_calls, final1.tool_calls]
  | Except.ok final2 =>
    finish_final fp final2 r2.memory [message, final1, final2]
      [message.tool_calls, final1.tool_calls]

/-- After the first follow-up response: when it requests more tool calls,
one additional assistant message is recorded, exactly one more round is
executed, and the next response is final regardless; otherwise it is
final itself. -/
def second_round (env : Env) (llm : Nat → List MsgDict → Except String LLMMessage)
    (st : AgentState) (fp : FirstProcessed) (message final1 : LLMMessage)
    (r1 : RoundResult) : QueryResult :=
  if final1.tool_calls ≠ [] then
    third_call llm fp message final1
      (handle_tool_calls env st final1.tool_calls
        (r1.messages ++ [(Message.mk Role.assistant final1.content final1.tool_calls "" "").to_dict])
        (r1.memory ++ [Message.mk Role.assistant final1.content final1.tool_calls "" ""]))
  else finish_final fp final1 r1.memory [message, final1] [message.tool_calls]

/-- The second LLM invocation, after the first tool round. -/
def after_first_round (env : Env) (llm : Nat → List MsgDict → Except String LLMMessage)
    (st : AgentState) (fp : FirstProcessed) (message : LLMMessage)
    (r1 : RoundResult) : QueryResult :=
  match invoke_llm llm 1 r1.messages with
  | Except.error e => finish_failure fp e r1.memory [message] [message.tool_calls]
  | Except.ok final1 => second_round env llm st fp message final1 r1

/-- The tool-call branch of `execute_query`: record the assistant message
carrying the literal tool-call list (content never absent), run the first
round, and continue with the second invocation. -/
def tools_branch (env : Env) (llm : Nat → List MsgDict → Except String LLMMessage)
    (st : AgentState) (fp : FirstProcessed) (message : LLMMessage)
    (messages : List MsgDict) (mem1 : List Message) : QueryResult :=
  after_first_round env llm st fp message
    (handle_tool_calls env st message.tool_calls
      (messages ++ [(Message.mk Role.assistant fp.content message.tool_calls "" "").to_dict])
      (mem1 ++ [Message.mk Role.assistant fp.content message.tool_calls "" ""]))

/-- `MyTinyAgent.execute_query`: assemble the context, record the current
message, invoke the model (a failure here terminates the turn with an
error recorded as an assistant message), process the first response's
markers, then either run the bounded tool-round protocol, record a
simple response, or synthesize the no-content placeholder. -/
def execute_query (env : Env) (llm : Nat → List MsgDict → Except String LLMMessage)
    (system_prompt : String) (st : AgentState) (mem : AgentMemory)
    (query : String) : QueryResult :=
  match invoke_llm llm 0 (initial_messages env system_prompt st mem query) with
  | Except.error e =>
    { output := "Failed to get response: " ++ e,
      memory := (mem.messages ++ [Message.mk Role.user query [] "" ""]) ++
        [Message.mk Role.assistant ("Failed to get response: " ++ e) [] "" ""],
      displays := [], responses := [], executedBatches := [], finalContent := none }
  | Except.ok message =>
    if message.tool_calls ≠ [] then
      tools_branch env llm st (process_first message.content) message
        (initial_messages env system_prompt st mem query)
        (mem.messages ++ [Message.mk Role.user query [] "" ""])
    else if (process_first message.content).content ≠ "" then
      { output := join_output (process_first message.content).output_parts,
        memory := (mem.messages ++ [Message.mk Role.user query [] "" ""]) ++
          [Message.mk Role.assistant (process_first message.content).content [] "" ""],
        displays := (process_first message.content).displays,
        responses := [message], executedBatches := [], finalContent := none }
    else
      { output := join_output
          ((process_first message.content).output_parts ++ ["[No content or tool calls received]"]),
        memory := (mem.messages ++ [Message.mk Role.user query [] "" ""]) ++
          [Message.mk Role.assistant "[No content or tool calls received]" [] "" ""],
        displays := (process_first message.content).displays,
        responses := [message], executedBatches := [], finalContent := none }

/-- The bounded-round invariant of one turn: at most two executed
batches, at most three model responses, every executed batch is exactly
the request list of the same-index response, and when a third response
exists its content (and nothing else) is what the final-content path
handled. -/
def RoundInvariant (res : QueryResult) : Prop :=
  res.executedBatches.length ≤ 2 ∧
  res.responses.length ≤ 3 ∧
  (∀ i b, res.executedBatches.get? i = some b →
    ∃ r, res.responses.get? i = some r ∧ b = r.tool_calls) ∧
  (∀ r3, res.responses.get? 2 = some r3 → res.finalContent = some r3.content)

/-- A small concrete memory fixture used by the witnesses. -/
def sample_memory : AgentMemory :=
  { max_tokens := 100, buffer := 0, messages := [{ role := Role.user, content := "hi" }] }

/-- A memory fixture whose single stored message (90 characters) does not
fit the available budget of the witnesses, forcing a trim. -/
def sample_long_memory : AgentMemory :=
  { max_tokens := 100, buffer := 0,
    messages := [{ role := Role.user, content := "aaaaaaaaaaaaaaaaaaaaaaaaaaaaaaaaaaaaaaaaaaaaaaaaaaaaaaaaaaaaaaaaaaaaaaaaaaaaaaaaaaaaaaaa" }] }

/-- A short system message fixture used by the witnesses. -/
def sample_system : Message :=
  { role := Role.system, content := "s" }

/-- A short current-user message fixture used by the witnesses. -/
def sample_user : Message :=
  { role := Role.user, content := "q" }

/-- A concrete instantiation of the external collaborators, used by the
witnesses and counterexamples: the encoding counts characters, the
serializers are constant, `json_loads` fails exactly on the text "BAD",
and every session serves exactly one tool named "t". -/
def sample_env : Env :=
  { enc := String.length
    dumps_tool_calls := fun _ => "[]"
    dumps_schemas := fun _ => "[]"
    json_loads := fun s => if s = "BAD" then Except.error "bad json" else Except.ok s
    call_tool := fun _ name _ =>
      if name = "t" then Except.ok { content := ["ok-result"] } else Except.error "boom" }

/-- A registry fixture with one connected session serving one tool "t". -/
def sample_state : AgentState :=
  { sessions := [1]
    tools := [{ name := "t", description := "d", inputSchema := "s" }]
    tool_to_session := fun n => if n = "t" then some 1 else none }

/-- An empty-history memory fixture with the default budget and buffer. -/
def empty_memory : AgentMemory :=
  { max_tokens := 16000, buffer := 500, messages := [] }

/-- An LLM fixture that always answers with the analysis example of the
spec and requests no tools. -/
def llm_analysis : Nat → List MsgDict → Except String LLMMessage :=
  fun _ _ =>
    Except.ok { content := "<analysis>check disk space</analysis>All good.", tool_calls := [] }

/-- An LLM fixture that always answers with no content and no tools. -/
def llm_empty : Nat → List MsgDict → Except String LLMMessage :=
  fun _ _ => Except.ok { content := "", tool_calls := [] }

/-- An LLM fixture whose first response requests one tool call and whose
follow-up responses carry neither content nor tool calls. -/
def llm_tool_then_empty : Nat → List MsgDict → Except String LLMMessage :=
  fun n _ =>
    if n = 0 then
      Except.ok { content := "", tool_calls := [⟨"id1", "function", ⟨"t", "a1"⟩⟩] }
    else Except.ok { content := "", tool_calls := [] }

/-- An LLM fixture whose first two responses each request one tool call
and whose third response carries neither content nor tool calls. -/
def llm_two_rounds_then_empty : Nat → List MsgDict → Except String LLMMessage :=
  fun n _ =>
    if n = 0 then
      Except.ok { content := "", tool_calls := [⟨"id1", "function", ⟨"t", "a1"⟩⟩] }
    else if n = 1 then
      Except.ok { content := "", tool_calls := [⟨"id2", "function", ⟨"t", "a2"⟩⟩] }
    else Except.ok { content := "", tool_calls := [] }

/-- An LLM fixture that requests a tool call on every invocation; the
third response still carries requests, which must be discarded. -/
def llm_three_rounds : Nat → List MsgDict → Except String LLMMessage :=
  fun n _ =>
    if n = 0 then
      Except.ok { content := "", tool_calls := [⟨"id1", "function", ⟨"t", "a1"⟩⟩] }
    else if n = 1 then
      Except.ok { content := "", tool_calls := [⟨"id2", "function", ⟨"t", "a2"⟩⟩] }
    else
      Except.ok { content := "third answer", tool_calls := [⟨"id3", "function", ⟨"t", "a3"⟩⟩] }

/-- Unfolding lemma: `sum_msg_tokens` over a cons. -/
theorem sum_msg_tokens_cons (env : Env) (d : MsgDict) (ds : List MsgDict) :
    sum_msg_tokens env (d :: ds) = calculate_token_count env [d] + sum_msg_tokens env ds := by
  simp [sum_msg_tokens]

/-- `sum_msg_tokens` is invariant under reversal. -/
theorem sum_msg_tokens_reverse (env : Env) (ds : List MsgDict) :
    sum_msg_tokens env ds.reverse = sum_msg_tokens env ds := by
  unfold sum_msg_tokens
  rw [List.map_reverse, List.sum_reverse]

/-- Splitting a batch count on a cons cell. -/
theorem calculate_token_count_cons (env : Env) (d : MsgDict) (ds : List MsgDict) :
    calculate_token_count env (d :: ds) + 2 =
      calculate_token_count env [d] + calculate_token_count env ds := by
  simp only [calculate_token_count, List.map_cons, List.sum_cons, List.map_nil, List.sum_nil]
  omega

/-- Batch cost versus per-message costs: counting a list in one batch
saves the 2-token priming constant of each message and adds it once. -/
theorem calculate_token_count_batch (env : Env) (ds : List MsgDict) :
    calculate_token_count env ds + 2 * ds.length = sum_msg_tokens env ds + 2 := by
  induction ds with
  | nil => rfl
  | cons d rest ih =>
    have hct := calculate_token_count_cons env d rest
    rw [sum_msg_tokens_cons, List.length_cons]
    omega

/-- Every message dictionary costs at least the 2-token priming constant. -/
theorem calculate_token_count_pos (env : Env) (ds : List MsgDict) :
    2 ≤ calculate_token_count env ds := by
  simp [calculate_token_count]

/-- Unfolding the selection loop on a cons cell. -/
theorem trim_loop_cons (env : Env) (a : Int) (d : MsgDict) (rest : List MsgDict) (u : Nat) :
    trim_loop env a (d :: rest) u =
      if ((u + calculate_token_count env [d] : Nat) : Int) ≤ a then
        ((trim_loop env a rest (u + calculate_token_count env [d])).1 ++ [d],
         (trim_loop env a rest (u + calculate_token_count env [d])).2)
      else ([], u) := by
  rfl

/-- First component of `trim_loop_cons`. -/
theorem trim_loop_cons_fst (env : Env) (a : Int) (d : MsgDict) (rest : List MsgDict) (u : Nat) :
    (trim_loop env a (d :: rest) u).1 =
      if ((u + calculate_token_count env [d] : Nat) : Int) ≤ a then
        (trim_loop env a rest (u + calculate_token_count env [d])).1 ++ [d]
      else [] := by
  rw [trim_loop_cons, apply_ite Prod.fst]

/-- Second component of `trim_loop_cons`. -/
theorem trim_loop_cons_snd (env : Env) (a : Int) (d : MsgDict) (rest : List MsgDict) (u : Nat) :
    (trim_loop env a (d :: rest) u).2 =
      if ((u + calculate_token_count env [d] : Nat) : Int) ≤ a then
        (trim_loop env a rest (u + calculate_token_count env [d])).2
      else u := by
  rw [trim_loop_cons, apply_ite Prod.snd]

/-- Full characterization of the selection loop: it selects (the reverse
of) a prefix of its input, accumulates exactly the per-message costs of
that prefix into `used`, keeps `used` within the budget whenever anything
was selected, and stops exactly at the first message whose marginal cost
does not fit. -/
theorem trim_loop_spec (env : Env) (a : Int) (l : List MsgDict) :
    ∀ u : Nat, ∃ k, k ≤ l.length ∧
      (trim_loop env a l u).1 = (l.take k).reverse ∧
      (trim_loop env a l u).2 = u + sum_msg_tokens env (l.take k) ∧
      ((trim_loop env a l u).2 = u ∨ (((trim_loop env a l u).2 : Nat) : Int) ≤ a) ∧
      ∀ d rest, l.drop k = d :: rest →
        ¬ ((((trim_loop env a l u).2 + calculate_token_count env [d] : Nat) : Int) ≤ a) := by
  induction l with
  | nil =>
    intro u
    refine ⟨0, Nat.le_refl 0, rfl, by simp [trim_loop, sum_msg_tokens], Or.inl rfl, ?_⟩
    intro d rest h
    simp at h
  | cons d rest ih =>
    intro u
    by_cases hc : ((u + calculate_token_count env [d] : Nat) : Int) ≤ a
    · obtain ⟨k, hk, h1, h2, h4, h3⟩ := ih (u + calculate_token_count env [d])
      refine ⟨k + 1, Nat.succ_le_succ hk, ?_, ?_, ?_, ?_⟩
      · rw [trim_loop_cons_fst, if_pos hc, h1, List.take_succ_cons, List.reverse_cons]
      · rw [trim_loop_cons_snd, if_pos hc, h2, List.take_succ_cons, sum_msg_tokens_cons]
        omega
      · right
        rw [trim_loop_cons_snd, if_pos hc]
        rcases h4 with h4 | h4
        · rw [h4]; exact hc
        · exact h4
      · intro d2 rest2 hdrop
        rw [List.drop_succ_cons] at hdrop
        rw [trim_loop_cons_snd, if_pos hc]
        exact h3 d2 rest2 hdrop
    · refine ⟨0, Nat.zero_le _, ?_, ?_, ?_, ?_⟩
      · rw [trim_loop_cons_fst, if_neg hc, List.take_zero, List.reverse_nil]
      · rw [trim_loop_cons_snd, if_neg hc]
        simp [sum_msg_tokens]
      · left
        rw [trim_loop_cons_snd, if_neg hc]
      · intro d2 rest2 hdrop
        rw [List.drop_zero] at hdrop
        injection hdrop with hd hr
        subst hd
        rw [trim_loop_cons_snd, if_neg hc]
        exact hc

/-- When the available budget is non-positive, the selection loop selects
nothing (every message costs at least 2 tokens). -/
theorem trim_loop_nonpos (env : Env) (a : Int) (l : List MsgDict) (h : a ≤ 0) :
    trim_loop env a l 0 = ([], 0) := by
  cases l with
  | nil => rfl
  | cons d rest =>
    have h2 := calculate_token_count_pos env [d]
    rw [trim_loop_cons, if_neg]
    push_cast
    omega

/-- C1 counterexample: with a zero token budget, zero buffer, empty
history and empty system/current messages (under the character-counting
encoding), the empty context returned by `build_context_messages` still
has an estimated cost of 2 tokens, and adding the reserved costs exceeds
`max_tokens`. -/
theorem c1_counterexample :
    ¬ ((calculate_token_count sample_env
          (build_context_messages sample_env
            { max_tokens := 0, buffer := 0, messages := [] }
            { role := Role.system } { role := Role.user } 0) : Int) +
        reserved_tokens sample_env { max_tokens := 0, buffer := 0, messages := [] }
          { role := Role.system } { role := Role.user } 0
        ≤ (0 : Int)) := by
  decide

/-- C1 amended: whenever the reserved costs plus the 2-token priming
constant fit within `max_tokens`, the context returned by
`build_context_messages` (trim notice included) has an estimated token
cost which, added to the costs of the system message, current message,
tool schemas and safety buffer, never exceeds `max_tokens`. -/
theorem c1_context_fits_budget (env : Env) (mem : AgentMemory)
    (system_msg current_msg : Message) (tools_tokens : Int)
    (h : reserved_tokens env mem system_msg current_msg tools_tokens + 2 ≤ mem.max_tokens) :
    (calculate_token_count env
        (build_context_messages env mem system_msg current_msg tools_tokens) : Int) +
      reserved_tokens env mem system_msg current_msg tools_tokens ≤ mem.max_tokens := by
  have hA : (2 : Int) ≤ context_available env mem system_msg current_msg tools_tokens := by
    unfold context_available
    omega
  suffices hs : (calculate_token_count env
      (build_context_messages env mem system_msg current_msg tools_tokens) : Int) ≤
      context_available env mem system_msg current_msg tools_tokens by
    unfold context_available at hs
    omega
  unfold build_context_messages
  split
  · next hle => exfalso; omega
  · next hgt =>
    obtain ⟨k, hk, h1, h2, h4, h3⟩ :=
      trim_loop_spec env (context_available env mem system_msg current_msg tools_tokens)
        ((mem.messages.map Message.to_dict).reverse) 0
    have hused : (context_selection env mem system_msg current_msg tools_tokens).2 =
        sum_msg_tokens env (context_selection env mem system_msg current_msg tools_tokens).1 := by
      unfold context_selection
      rw [h2, h1, sum_msg_tokens_reverse]
      exact Nat.zero_add _
    have hsel_le : ((context_selection env mem system_msg current_msg tools_tokens).2 : Int) ≤
        context_available env mem system_msg current_msg tools_tokens := by
      rcases h4 with hz | hle2
      · unfold context_selection
        rw [hz]
        omega
      · exact hle2
    have hsel_ct : (calculate_token_count env
        (context_selection env mem system_msg current_msg tools_tokens).1 : Int) ≤
        context_available env mem system_msg current_msg tools_tokens := by
      have hb := calculate_token_count_batch env
        (context_selection env mem system_msg current_msg tools_tokens).1
      rcases Nat.eq_zero_or_pos
        (context_selection env mem system_msg current_msg tools_tokens).1.length with hL | hL
      · have : calculate_token_count env
            (context_selection env mem system_msg current_msg tools_tokens).1 = 2 := by
          rw [List.length_eq_zero.mp hL]
          rfl
        omega
      · have : calculate_token_count env
            (context_selection env mem system_msg current_msg tools_tokens).1 ≤
            sum_msg_tokens env (context_selection env mem system_msg current_msg tools_tokens).1 := by
          omega
        rw [hused] at hsel_le
        omega
    split
    · next htrim =>
      split
      · next hfits =>
        have hb := calculate_token_count_batch env
          ((trim_notice mem (context_selection env mem system_msg current_msg tools_tokens).1).to_dict
            :: (context_selection env mem system_msg current_msg tools_tokens).1)
        rw [sum_msg_tokens_cons] at hb
        rw [hused] at hfits
        simp only [List.length_cons] at hb
        have : calculate_token_count env
            ((trim_notice mem (context_selection env mem system_msg current_msg tools_tokens).1).to_dict
              :: (context_selection env mem system_msg current_msg tools_tokens).1) ≤
            calculate_token_count env
              [(trim_notice mem (context_selection env mem system_msg current_msg tools_tokens).1).to_dict]
            + sum_msg_tokens env (context_selection env mem system_msg current_msg tools_tokens).1 := by
          omega
        rw [← hused] at this
        omega
      · next => exact hsel_ct
    · next => exact hsel_ct

theorem c1_context_fits_budget_witness :
    reserved_tokens sample_env sample_memory sample_system sample_user 0 + 2 ≤ (100 : Int) ∧
    (calculate_token_count sample_env
        (build_context_messages sample_env sample_memory sample_system sample_user 0) : Int) +
      reserved_tokens sample_env sample_memory sample_system sample_user 0
      ≤ sample_memory.max_tokens :=
  ⟨by decide,
   c1_context_fits_budget sample_env sample_memory sample_system sample_user 0 (by decide)⟩

/-- C5: whenever the selection excluded at least one stored message, the
trim notice (a system-role message stating the count
`len(log) - len(selected)`) is prepended as the first returned element
exactly when it itself still fits the available budget; otherwise the
returned sequence is the bare selection, with no notice. -/
theorem c5_trim_notice (env : Env) (mem : AgentMemory) (system_msg current_msg : Message)
    (tools_tokens : Int)
    (h : (context_selection env mem system_msg current_msg tools_tokens).1.length
        < mem.messages.length) :
    (((calculate_token_count env
          [(trim_notice mem (context_selection env mem system_msg current_msg tools_tokens).1).to_dict]
        + (context_selection env mem system_msg current_msg tools_tokens).2 : Nat) : Int)
        ≤ context_available env mem system_msg current_msg tools_tokens →
      build_context_messages env mem system_msg current_msg tools_tokens =
        (trim_notice mem (context_selection env mem system_msg current_msg tools_tokens).1).to_dict
          :: (context_selection env mem system_msg current_msg tools_tokens).1) ∧
    (¬ (((calculate_token_count env
          [(trim_notice mem (context_selection env mem system_msg current_msg tools_tokens).1).to_dict]
        + (context_selection env mem system_msg current_msg tools_tokens).2 : Nat) : Int)
        ≤ context_available env mem system_msg current_msg tools_tokens) →
      build_context_messages env mem system_msg current_msg tools_tokens =
        (context_selection env mem system_msg current_msg tools_tokens).1) := by
  constructor
  · intro hfits
    have hA : ¬ (context_available env mem system_msg current_msg tools_tokens ≤ 0) := by
      intro hA0
      have h2 := calculate_token_count_pos env
        [(trim_notice mem (context_selection env mem system_msg current_msg tools_tokens).1).to_dict]
      push_cast at hfits
      omega
    unfold build_context_messages
    rw [if_neg hA, if_pos h, if_pos hfits]
  · intro hnot
    by_cases hA : context_available env mem system_msg current_msg tools_tokens ≤ 0
    · have hsel := trim_loop_nonpos env
        (context_available env mem system_msg current_msg tools_tokens)
        ((mem.messages.map Message.to_dict).reverse) hA
      unfold build_context_messages
      rw [if_pos hA]
      unfold context_selection
      rw [hsel]
    · unfold build_context_messages
      rw [if_neg hA, if_pos h, if_neg hnot]

theorem c5_trim_notice_witness :
    build_context_messages sample_env sample_long_memory sample_system sample_user 0
      = (trim_notice sample_long_memory
          (context_selection sample_env sample_long_memory sample_system sample_user 0).1).to_dict
        :: (context_selection sample_env sample_long_memory sample_system sample_user 0).1 :=
  (c5_trim_notice sample_env sample_long_memory sample_system sample_user 0
    (by decide)).1 (by decide)

/-- C6: the non-notice part of the returned context is the selection, a
contiguous suffix of the stored log in original chronological order: the
reversed log is scanned greedily and the scan stops at the first message
that does not fit, so no older message is ever included past that point. -/
theorem c6_greedy_suffix (env : Env) (mem : AgentMemory) (system_msg current_msg : Message)
    (tools_tokens : Int) :
    (build_context_messages env mem system_msg current_msg tools_tokens =
        (context_selection env mem system_msg current_msg tools_tokens).1 ∨
      build_context_messages env mem system_msg current_msg tools_tokens =
        (trim_notice mem (context_selection env mem system_msg current_msg tools_tokens).1).to_dict
          :: (context_selection env mem system_msg current_msg tools_tokens).1) ∧
    (context_selection env mem system_msg current_msg tools_tokens).1 <:+
      mem.messages.map Message.to_dict ∧
    ∃ k, (context_selection env mem system_msg current_msg tools_tokens).1 =
        ((mem.messages.map Message.to_dict).reverse.take k).reverse ∧
      ∀ d rest, (mem.messages.map Message.to_dict).reverse.drop k = d :: rest →
        ¬ ((((context_selection env mem system_msg current_msg tools_tokens).2
            + calculate_token_count env [d] : Nat) : Int)
          ≤ context_available env mem system_msg current_msg tools_tokens) := by
  obtain ⟨k, hk, h1, h2, h4, h3⟩ :=
    trim_loop_spec env (context_available env mem system_msg current_msg tools_tokens)
      ((mem.messages.map Message.to_dict).reverse) 0
  refine ⟨?_, ?_, ⟨k, ?_, ?_⟩⟩
  · unfold build_context_messages
    by_cases hA : context_available env mem system_msg current_msg tools_tokens ≤ 0
    · rw [if_pos hA]
      left
      have hsel := trim_loop_nonpos env
        (context_available env mem system_msg current_msg tools_tokens)
        ((mem.messages.map Message.to_dict).reverse) hA
      unfold context_selection
      rw [hsel]
    · rw [if_neg hA]
      by_cases ht : (context_selection env mem system_msg current_msg tools_tokens).1.length
          < mem.messages.length
      · rw [if_pos ht]
        by_cases hf : ((calculate_token_count env
              [(trim_notice mem (context_selection env mem system_msg current_msg tools_tokens).1).to_dict]
            + (context_selection env mem system_msg current_msg tools_tokens).2 : Nat) : Int)
            ≤ context_available env mem system_msg current_msg tools_tokens
        · rw [if_pos hf]; right; rfl
        · rw [if_neg hf]; left; rfl
      · rw [if_neg ht]; left; rfl
  · unfold context_selection
    rw [h1]
    refine ⟨((mem.messages.map Message.to_dict).reverse.drop k).reverse, ?_⟩
    rw [← List.reverse_append, List.take_append_drop, List.reverse_reverse]
  · unfold context_selection
    exact h1
  · intro d rest hdrop
    unfold context_selection
    exact h3 d rest hdrop

theorem c6_greedy_suffix_witness :
    (context_selection sample_env sample_memory sample_system sample_user 0).1 <:+
      sample_memory.messages.map Message.to_dict :=
  (c6_greedy_suffix sample_env sample_memory sample_system sample_user 0).2.1

/-- C2 counterexample: two providers (sessions 1 and 2) each register a
tool named "t". Dispatch resolves to the provider registered last, but
the schema list emitted for the model contains an entry named "t" twice,
not exactly once. -/
theorem c2_counterexample :
    (connect_mcp_server (connect_mcp_server initial_state 1
        [{ name := "t", description := "d1", inputSchema := "s1" }]) 2
        [{ name := "t", description := "d2", inputSchema := "s2" }]).tool_to_session "t"
      = some 2 ∧
    ((build_tool_schemas (connect_mcp_server (connect_mcp_server initial_state 1
        [{ name := "t", description := "d1", inputSchema := "s1" }]) 2
        [{ name := "t", description := "d2", inputSchema := "s2" }])).filter
          (fun s => s.name = "t")).length = 2 := by
  constructor
  · rfl
  · rfl

/-- C2 amended: when two providers each register a tool with the same
name, resolving that name dispatches to the provider registered last, and
the schema list gains one entry for that name per registration — two new
entries, not one. -/
theorem c2_last_write_wins_schema_count (st : AgentState) (s1 s2 : Nat)
    (d1 d2 : ToolDescr) (h : d1.name = d2.name) :
    (connect_mcp_server (connect_mcp_server st s1 [d1]) s2 [d2]).tool_to_session d2.name
      = some s2 ∧
    ((build_tool_schemas (connect_mcp_server (connect_mcp_server st s1 [d1]) s2 [d2])).filter
        (fun s => s.name = d2.name)).length
      = ((build_tool_schemas st).filter (fun s => s.name = d2.name)).length + 2 := by
  constructor
  · simp [connect_mcp_server]
  · simp [connect_mcp_server, build_tool_schemas, List.filter_append, h]

theorem c2_last_write_wins_schema_count_witness :
    (connect_mcp_server (connect_mcp_server initial_state 7
        [{ name := "w", description := "a", inputSchema := "x" }]) 9
        [{ name := "w", description := "b", inputSchema := "y" }]).tool_to_session "w"
      = some 9 ∧
    ((build_tool_schemas (connect_mcp_server (connect_mcp_server initial_state 7
        [{ name := "w", description := "a", inputSchema := "x" }]) 9
        [{ name := "w", description := "b", inputSchema := "y" }])).filter
          (fun s => s.name = "w")).length
      = ((build_tool_schemas initial_state).filter (fun s => s.name = "w")).length + 2 :=
  c2_last_write_wins_schema_count initial_state 7 9
    { name := "w", description := "a", inputSchema := "x" }
    { name := "w", description := "b", inputSchema := "y" } rfl

/-- C9: a system/user/assistant message always serializes a `content` key
equal to its content (the empty string when the content is empty), and the
`content` key is omitted exactly when the role is `tool` and the content
is empty. -/
theorem c9_serialization_content (m : Message) :
    ((m.role = Role.system ∨ m.role = Role.user ∨ m.role = Role.assistant) →
      (Message.to_dict m).content = some m.content) ∧
    ((Message.to_dict m).content = none ↔ (m.role = Role.tool ∧ m.content = "")) := by
  cases hr : m.role <;>
    by_cases hc : m.content = "" <;>
      simp [Message.to_dict, hr, hc]

theorem c9_serialization_content_witness :
    (Message.to_dict { role := Role.tool, content := "", tool_call_id := "x", name := "n" }).content
        = none ∧
    (Message.to_dict { role := Role.assistant, content := "" }).content = some "" := by
  refine ⟨?_, ?_⟩
  · exact (c9_serialization_content
      { role := Role.tool, content := "", tool_call_id := "x", name := "n" }).2.mpr ⟨rfl, rfl⟩
  · exact (c9_serialization_content { role := Role.assistant, content := "" }).1 (Or.inr (Or.inr rfl))

/-- C10: an empty message list still costs 2 tokens (the reply-priming
constant), so immediately after `clear_history` the summary reports
0 messages and ~2 tokens. -/
theorem c10_empty_token_count (env : Env) (mem : AgentMemory) :
    calculate_token_count env [] = 2 ∧
    generate_summary env (clear_history mem) = "Chat history: 0 messages, ~2 tokens" := by
  constructor
  · rfl
  · simp only [generate_summary, clear_history, calculate_token_count, List.map_nil,
      List.sum_nil]
    decide

/-- `execute_tool` appends exactly the message `tool_message_of` to both
the in-flight list and memory, whatever the outcome. -/
theorem execute_tool_msgs (env : Env) (st : AgentState) (tc : ToolCall)
    (messages : List MsgDict) (memory : List Message) :
    (execute_tool env st tc messages memory).2.1 =
      messages ++ [(tool_message_of env st tc).to_dict] ∧
    (execute_tool env st tc messages memory).2.2 =
      memory ++ [tool_message_of env st tc] := by
  unfold execute_tool tool_message_of
  cases henv : env.json_loads tc.function.arguments with
  | error e => exact ⟨rfl, rfl⟩
  | ok tool_args =>
    dsimp only
    cases hses : st.tool_to_session tc.function.name with
    | none => exact ⟨rfl, rfl⟩
    | some session =>
      dsimp only
      cases hct : env.call_tool session tc.function.name tool_args with
      | error e => exact ⟨rfl, rfl⟩
      | ok result => exact ⟨rfl, rfl⟩

/-- Helper for the C8 witness and similar closed computations: the
`json_loads` outcome of `sample_env` on the text "BAD". -/
theorem sample_env_json_loads_bad :
    sample_env.json_loads "BAD" = Except.error "bad json" := rfl

/-- The message list of a round after a cons cell. -/
theorem handle_tool_calls_cons_messages (env : Env) (st : AgentState) (tc : ToolCall)
    (rest : List ToolCall) (messages : List MsgDict) (memory : List Message) :
    (handle_tool_calls env st (tc :: rest) messages memory).messages =
      (handle_tool_calls env st rest (execute_tool env st tc messages memory).2.1
        (execute_tool env st tc messages memory).2.2).messages := rfl

/-- The memory of a round after a cons cell. -/
theorem handle_tool_calls_cons_memory (env : Env) (st : AgentState) (tc : ToolCall)
    (rest : List ToolCall) (messages : List MsgDict) (memory : List Message) :
    (handle_tool_calls env st (tc :: rest) messages memory).memory =
      (handle_tool_calls env st rest (execute_tool env st tc messages memory).2.1
        (execute_tool env st tc messages memory).2.2).memory := rfl

/-- C8: one round over an ordered batch appends exactly one tool-role
message per request, in order, to both the in-flight message list and
durable memory — every request is executed, the batch never
short-circuits — and each synthesized message is tagged with its
request's `tool_call_id` and tool name, a parse failure yielding the
parse-error content. -/
theorem c8_batch_no_short_circuit (env : Env) (st : AgentState) (batch : List ToolCall)
    (messages : List MsgDict) (memory : List Message) :
    (handle_tool_calls env st batch messages memory).messages =
      messages ++ batch.map (fun tc => (tool_message_of env st tc).to_dict) ∧
    (handle_tool_calls env st batch messages memory).memory =
      memory ++ batch.map (tool_message_of env st) ∧
    (∀ tc, tc ∈ batch →
      (tool_message_of env st tc).role = Role.tool ∧
      (tool_message_of env st tc).tool_call_id = tc.id ∧
      (tool_message_of env st tc).name = tc.function.name) ∧
    (∀ tc, tc ∈ batch → ∀ e, env.json_loads tc.function.arguments = Except.error e →
      (tool_message_of env st tc).content = "Error: Could not parse arguments. " ++ e) := by
  refine ⟨?_, ?_, ?_, ?_⟩
  · induction batch generalizing messages memory with
    | nil => simp [handle_tool_calls]
    | cons tc rest ih =>
      rw [handle_tool_calls_cons_messages,
        ih (execute_tool env st tc messages memory).2.1 (execute_tool env st tc messages memory).2.2,
        (execute_tool_msgs env st tc messages memory).1]
      simp
  · induction batch generalizing messages memory with
    | nil => simp [handle_tool_calls]
    | cons tc rest ih =>
      rw [handle_tool_calls_cons_memory,
        ih (execute_tool env st tc messages memory).2.1 (execute_tool env st tc messages memory).2.2,
        (execute_tool_msgs env st tc messages memory).2]
      simp
  · intro tc _
    unfold tool_message_of
    cases henv : env.json_loads tc.function.arguments with
    | error e => exact ⟨rfl, rfl, rfl⟩
    | ok tool_args =>
      dsimp only
      cases hses : st.tool_to_session tc.function.name with
      | none => exact ⟨rfl, rfl, rfl⟩
      | some session =>
        dsimp only
        cases hct : env.call_tool session tc.function.name tool_args with
        | error e => exact ⟨rfl, rfl, rfl⟩
        | ok result => exact ⟨rfl, rfl, rfl⟩
  · intro tc _ e he
    unfold tool_message_of
    rw [he]

theorem c8_batch_no_short_circuit_witness :
    (handle_tool_calls sample_env sample_state
        [⟨"id1", "function", ⟨"t", "BAD"⟩⟩, ⟨"id2", "function", ⟨"t", "a2"⟩⟩] [] []).memory =
      [Message.mk Role.tool "Error: Could not parse arguments. bad json" [] "id1" "t",
       Message.mk Role.tool "ok-result" [] "id2" "t"] ∧
    (tool_message_of sample_env sample_state ⟨"id1", "function", ⟨"t", "BAD"⟩⟩).content =
      "Error: Could not parse arguments. " ++ "bad json" := by
  have h := c8_batch_no_short_circuit sample_env sample_state
    [⟨"id1", "function", ⟨"t", "BAD"⟩⟩, ⟨"id2", "function", ⟨"t", "a2"⟩⟩] [] []
  refine ⟨?_, ?_⟩
  · rw [h.2.1]
    decide
  · exact h.2.2.2 ⟨"id1", "function", ⟨"t", "BAD"⟩⟩ (by decide) "bad json" rfl

/-- C3 counterexample: on the exact spec example content (first response,
no tool calls) the analysis panel receives "check disk space", but the
string returned by `execute_query` is empty, not "All good." — the
stripped remainder is excluded from the output because an analysis block
was displayed. -/
theorem c3_counterexample :
    (execute_query sample_env llm_analysis "sys" initial_state empty_memory "q").displays =
      [DispEvent.analysis "check disk space"] ∧
    ¬ ((execute_query sample_env llm_analysis "sys" initial_state empty_memory "q").output =
      "All good.") := by
  decide

/-- C3 amended: on the spec example content, the analysis panel receives
"check disk space", the stripped remainder "All good." is recorded to
memory as the assistant message, and `execute_query` returns the empty
string as the turn's output. -/
theorem c3_analysis_extraction :
    (execute_query sample_env llm_analysis "sys" initial_state empty_memory "q").displays =
      [DispEvent.analysis "check disk space"] ∧
    (execute_query sample_env llm_analysis "sys" initial_state empty_memory "q").output = "" ∧
    (execute_query sample_env llm_analysis "sys" initial_state empty_memory "q").memory =
      [Message.mk Role.user "q" [] "" "", Message.mk Role.assistant "All good." [] "" ""] := by
  decide

/-- A successful backend response passes through `_invoke_llm` unchanged. -/
theorem invoke_llm_ok (llm : Nat → List MsgDict → Except String LLMMessage) (n : Nat)
    (messages : List MsgDict) (m : LLMMessage) (h : llm n messages = Except.ok m) :
    invoke_llm llm n messages = Except.ok m := by
  unfold invoke_llm
  rw [h]

/-- Marker processing of an empty first-response content is inert. -/
theorem process_first_empty :
    process_first "" =
      { content := "", output_parts := [], displays := [],
        action_plan_displayed := false, analysis_displayed := false } := rfl

/-- C7 counterexample: the first response requests one tool call (no
content), the tool succeeds, and the follow-up response carries neither
content nor tool calls — yet the turn's output is empty and no message
with the placeholder content is ever appended to memory. -/
theorem c7_counterexample :
    (execute_query sample_env llm_tool_then_empty "sys" sample_state empty_memory "q").output
      = "" ∧
    ((execute_query sample_env llm_tool_then_empty "sys" sample_state empty_memory "q").memory.filter
      (fun m => m.content = "[No content or tool calls received]")).length = 0 := by
  decide

/-- C7 amended: the placeholder "[No content or tool calls received]" is
synthesized only at the first terminal point: when the first model
response carries neither content nor tool calls, it is the turn's output
and is appended to memory as an assistant message; when a final response
after one tool-execution round — or after two rounds — carries neither
content nor tool calls, nothing is appended for it, the final memory is
exactly the memory left by the executed rounds, and the output consists
of the parts collected from the first response only. -/
theorem c7_placeholder (env : Env) (llm : Nat → List MsgDict → Except String LLMMessage)
    (system_prompt : String) (st : AgentState) (mem : AgentMemory) (query : String) :
    (llm 0 (initial_messages env system_prompt st mem query) =
        Except.ok { content := "", tool_calls := [] } →
      (execute_query env llm system_prompt st mem query).output =
        "[No content or tool calls received]" ∧
      (execute_query env llm system_prompt st mem query).memory =
        (mem.messages ++ [Message.mk Role.user query [] "" ""]) ++
          [Message.mk Role.assistant "[No content or tool calls received]" [] "" ""]) ∧
    (∀ r0, llm 0 (initial_messages env system_prompt st mem query) = Except.ok r0 →
      r0.tool_calls ≠ [] →
      (∀ msgs, llm 1 msgs = Except.ok { content := "", tool_calls := [] }) →
      (execute_query env llm system_prompt st mem query).finalContent = some "" ∧
      (execute_query env llm system_prompt st mem query).output =
        join_output (process_first r0.content).output_parts ∧
      (execute_query env llm system_prompt st mem query).memory =
        (handle_tool_calls env st r0.tool_calls
          (initial_messages env system_prompt st mem query ++
            [(Message.mk Role.assistant (process_first r0.content).content r0.tool_calls "" "").to_dict])
          ((mem.messages ++ [Message.mk Role.user query [] "" ""]) ++
            [Message.mk Role.assistant (process_first r0.content).content r0.tool_calls "" ""])).memory) ∧
    (∀ r0 r1m, llm 0 (initial_messages env system_prompt st mem query) = Except.ok r0 →
      r0.tool_calls ≠ [] →
      (∀ msgs, llm 1 msgs = Except.ok r1m) →
      r1m.tool_calls ≠ [] →
      (∀ msgs, llm 2 msgs = Except.ok { content := "", tool_calls := [] }) →
      (execute_query env llm system_prompt st mem query).finalContent = some "" ∧
      (execute_query env llm system_prompt st mem query).output =
        join_output (process_first r0.content).output_parts ∧
      (execute_query env llm system_prompt st mem query).memory =
        (handle_tool_calls env st r1m.tool_calls
          ((handle_tool_calls env st r0.tool_calls
              (initial_messages env system_prompt st mem query ++
                [(Message.mk Role.assistant (process_first r0.content).content r0.tool_calls "" "").to_dict])
              ((mem.messages ++ [Message.mk Role.user query [] "" ""]) ++
                [Message.mk Role.assistant (process_first r0.content).content r0.tool_calls "" ""])).messages ++
            [(Message.mk Role.assistant r1m.content r1m.tool_calls "" "").to_dict])
          ((handle_tool_calls env st r0.tool_calls
              (initial_messages env system_prompt st mem query ++
                [(Message.mk Role.assistant (process_first r0.content).content r0.tool_calls "" "").to_dict])
              ((mem.messages ++ [Message.mk Role.user query [] "" ""]) ++
                [Message.mk Role.assistant (process_first r0.content).content r0.tool_calls "" ""])).memory ++
            [Message.mk Role.assistant r1m.content r1m.tool_calls "" ""])).memory) := by
  refine ⟨?_, ?_, ?_⟩
  · intro h
    have hi := invoke_llm_ok llm 0 (initial_messages env system_prompt st mem query) _ h
    unfold execute_query
    rw [hi]
    dsimp only
    rw [process_first_empty]
    dsimp only
    refine ⟨rfl, rfl⟩
  · intro r0 h0 htc h1
    have hi0 := invoke_llm_ok llm 0 (initial_messages env system_prompt st mem query) r0 h0
    unfold execute_query
    rw [hi0]
    dsimp only
    rw [if_pos htc]
    unfold tools_branch after_first_round
    rw [invoke_llm_ok llm 1 _ _ (h1 _)]
    dsimp only
    unfold second_round
    rw [if_neg (by simp)]
    unfold finish_final handle_final
    dsimp only
    exact ⟨rfl, rfl, rfl⟩
  · intro r0 r1m h0 htc h1 htc2 h2
    have hi0 := invoke_llm_ok llm 0 (initial_messages env system_prompt st mem query) r0 h0
    unfold execute_query
    rw [hi0]
    dsimp only
    rw [if_pos htc]
    unfold tools_branch after_first_round
    rw [invoke_llm_ok llm 1 _ _ (h1 _)]
    dsimp only
    unfold second_round
    rw [if_pos htc2]
    unfold third_call
    rw [invoke_llm_ok llm 2 _ _ (h2 _)]
    dsimp only
    unfold finish_final handle_final
    dsimp only
    exact ⟨rfl, rfl, rfl⟩

theorem c7_placeholder_witness :
    ((execute_query sample_env llm_empty "sys" initial_state empty_memory "q").output =
        "[No content or tool calls received]" ∧
      (execute_query sample_env llm_empty "sys" initial_state empty_memory "q").memory =
        (empty_memory.messages ++ [Message.mk Role.user "q" [] "" ""]) ++
          [Message.mk Role.assistant "[No content or tool calls received]" [] "" ""]) ∧
    (execute_query sample_env llm_tool_then_empty "sys" sample_state empty_memory "q").finalContent
      = some "" ∧
    (execute_query sample_env llm_two_rounds_then_empty "sys" sample_state empty_memory "q").finalContent
      = some "" ∧
    (execute_query sample_env llm_two_rounds_then_empty "sys" sample_state empty_memory "q").output
      = join_output (process_first "").output_parts :=
  ⟨(c7_placeholder sample_env llm_empty "sys" initial_state empty_memory "q").1 rfl,
   ((c7_placeholder sample_env llm_tool_then_empty "sys" sample_state empty_memory "q").2.1
     { content := "", tool_calls := [⟨"id1", "function", ⟨"t", "a1"⟩⟩] } rfl
     (by decide) (fun msgs => rfl)).1,
   ((c7_placeholder sample_env llm_two_rounds_then_empty "sys" sample_state empty_memory "q").2.2
     { content := "", tool_calls := [⟨"id1", "function", ⟨"t", "a1"⟩⟩] }
     { content := "", tool_calls := [⟨"id2", "function", ⟨"t", "a2"⟩⟩] } rfl
     (by decide) (fun msgs => rfl) (by decide) (fun msgs => rfl)).1,
   ((c7_placeholder sample_env llm_two_rounds_then_empty "sys" sample_state empty_memory "q").2.2
     { content := "", tool_calls := [⟨"id1", "function", ⟨"t", "a1"⟩⟩] }
     { content := "", tool_calls := [⟨"id2", "function", ⟨"t", "a2"⟩⟩] } rfl
     (by decide) (fun msgs => rfl) (by decide) (fun msgs => rfl)).2.1⟩

/-- The third invocation's outcome satisfies the bounded-round invariant
for every state of the previous rounds. -/
theorem third_call_invariant (llm : Nat → List MsgDict → Except String LLMMessage)
    (fp : FirstProcessed) (message final1 : LLMMessage) (r2 : RoundResult) :
    RoundInvariant (third_call llm fp message final1 r2) := by
  unfold third_call
  cases h2 : invoke_llm llm 2 r2.messages with
  | error e =>
    unfold RoundInvariant finish_failure
    refine ⟨by simp, by simp, ?_, ?_⟩
    · intro i b hb
      rcases i with _ | _ | i
      · refine ⟨message, rfl, ?_⟩
        simp only [List.get?_cons_zero, Option.some.injEq] at hb
        exact hb.symm
      · refine ⟨final1, rfl, ?_⟩
        simp only [List.get?_cons_succ, List.get?_cons_zero, Option.some.injEq] at hb
        exact hb.symm
      · simp at hb
    · intro r3 h3
      simp at h3
  | ok final2 =>
    unfold RoundInvariant finish_final
    refine ⟨by simp, by simp, ?_, ?_⟩
    · intro i b hb
      rcases i with _ | _ | i
      · refine ⟨message, rfl, ?_⟩
        simp only [List.get?_cons_zero, Option.some.injEq] at hb
        exact hb.symm
      · refine ⟨final1, rfl, ?_⟩
        simp only [List.get?_cons_succ, List.get?_cons_zero, Option.some.injEq] at hb
        exact hb.symm
      · simp at hb
    · intro r3 h3
      simp only [List.get?_cons_succ, List.get?_cons_zero, Option.some.injEq] at h3
      rw [← h3]

/-- The second-round decision satisfies the bounded-round invariant. -/
theorem second_round_invariant (env : Env) (llm : Nat → List MsgDict → Except String LLMMessage)
    (st : AgentState) (fp : FirstProcessed) (message final1 : LLMMessage) (r1 : RoundResult) :
    RoundInvariant (second_round env llm st fp message final1 r1) := by
  unfold second_round
  by_cases h : final1.tool_calls ≠ []
  · rw [if_pos h]
    exact third_call_invariant llm fp message final1 _
  · rw [if_neg h]
    unfold RoundInvariant finish_final
    refine ⟨by simp, by simp, ?_, ?_⟩
    · intro i b hb
      rcases i with _ | i
      · refine ⟨message, rfl, ?_⟩
        simp only [List.get?_cons_zero, Option.some.injEq] at hb
        exact hb.symm
      · simp at hb
    · intro r3 h3
      simp at h3

/-- The first follow-up invocation satisfies the bounded-round invariant. -/
theorem after_first_round_invariant (env : Env)
    (llm : Nat → List MsgDict → Except String LLMMessage) (st : AgentState)
    (fp : FirstProcessed) (message : LLMMessage) (r1 : RoundResult) :
    RoundInvariant (after_first_round env llm st fp message r1) := by
  unfold after_first_round
  cases h1 : invoke_llm llm 1 r1.messages with
  | error e =>
    unfold RoundInvariant finish_failure
    refine ⟨by simp, by simp, ?_, ?_⟩
    · intro i b hb
      rcases i with _ | i
      · refine ⟨message, rfl, ?_⟩
        simp only [List.get?_cons_zero, Option.some.injEq] at hb
        exact hb.symm
      · simp at hb
    · intro r3 h3
      simp at h3
  | ok final1 => exact second_round_invariant env llm st fp message final1 r1

/-- C4: every turn executes at most two tool rounds (at most three model
invocations); each executed batch is exactly the request list of the
same-index model response, so a third response's requests are never
executed; and when a third response exists, its content is what the
final-content path handles. -/
theorem c4_bounded_rounds (env : Env) (llm : Nat → List MsgDict → Except String LLMMessage)
    (system_prompt : String) (st : AgentState) (mem : AgentMemory) (query : String) :
    (execute_query env llm system_prompt st mem query).executedBatches.length ≤ 2 ∧
    (execute_query env llm system_prompt st mem query).responses.length ≤ 3 ∧
    (∀ i b, (execute_query env llm system_prompt st mem query).executedBatches.get? i = some b →
      ∃ r, (execute_query env llm system_prompt st mem query).responses.get? i = some r ∧
        b = r.tool_calls) ∧
    (∀ r3, (execute_query env llm system_prompt st mem query).responses.get? 2 = some r3 →
      (execute_query env llm system_prompt st mem query).finalContent = some r3.content) := by
  have key : RoundInvariant (execute_query env llm system_prompt st mem query) := by
    unfold execute_query
    cases h0 : invoke_llm llm 0 (initial_messages env system_prompt st mem query) with
    | error e =>
      dsimp only
      exact ⟨by simp, by simp, by intro i b hb; simp at hb, by intro r3 h3; simp at h3⟩
    | ok message =>
      dsimp only
      by_cases ht : message.tool_calls ≠ []
      · rw [if_pos ht]
        unfold tools_branch
        exact after_first_round_invariant env llm st _ message _
      · rw [if_neg ht]
        by_cases hc : (process_first message.content).content ≠ ""
        · rw [if_pos hc]
          exact ⟨by simp, by simp, by intro i b hb; simp at hb, by intro r3 h3; simp at h3⟩
        · rw [if_neg hc]
          exact ⟨by simp, by simp, by intro i b hb; simp at hb, by intro r3 h3; simp at h3⟩
  exact key

theorem c4_bounded_rounds_witness :
    (execute_query sample_env llm_three_rounds "sys" sample_state empty_memory "q").executedBatches.length
      ≤ 2 ∧
    (execute_query sample_env llm_three_rounds "sys" sample_state empty_memory "q").finalContent
      = some "third answer" :=
  ⟨(c4_bounded_rounds sample_env llm_three_rounds "sys" sample_state empty_memory "q").1,
   (c4_bounded_rounds sample_env llm_three_rounds "sys" sample_state empty_memory "q").2.2.2
     { content := "third answer", tool_calls := [⟨"id3", "function", ⟨"t", "a3"⟩⟩] } (by decide)⟩

end TinyAgents
